import Mathlib

/-!
Verification of the nydus blob-cache core: a shallow embedding of the
storage-cache source files (`storage/src/utils.rs`,
`storage/src/cache/mod.rs`, `storage/src/cache/filecache/cache_entry.rs`,
`storage/src/cache/fscache/mod.rs`) together with theorems settling the
frozen specification claims.

Machine integers are modelled as `Nat` with explicit `% 2^w` at the places
where the source wraps; fallible operations return `Except`; in-place
mutation becomes explicit state passing (a function returns the new state,
and an error return carries the untouched state when the source errors out
before mutating).
-/

namespace NydusCache

/-- 2^32, the bound of Rust's `u32`. -/
def U32LIMIT : Nat := 4294967296

/-- 2^64, the bound of Rust's `u64` (and of `usize` on the 64-bit targets the
crate supports). -/
def U64LIMIT : Nat := 18446744073709551616

/-- `usize::MAX` on a 64-bit target, as used by the guard in `read_chunks`. -/
def USIZE_MAX : Nat := 18446744073709551615

/-- `StorageError` variants reached by the embedded code paths
(`storage/src/lib.rs` is outside the provided sources; the variant names
follow the uses in `utils.rs` and `cache_entry.rs`). -/
inductive StorageError where
  | notContinuous
  | memOverflow
  | volatileSlice
deriving DecidableEq

/-- The `std::io`-level error kinds produced by the cache layer; the source
classifies them through the `eio!` / `einval!` / `eother!` / `enosys!`
macros, all of which build a `std::io::Error`. -/
inductive CacheErr where
  | eio
  | einval
  | eother
  | enosys
deriving DecidableEq

/-! ## `storage/src/utils.rs`: scatter/gather copy and the memory cursor -/

/-- Modelled from the spec: the write contract of the external
`FileVolatileSlice::write(buf, offset)` (the vm-memory crate, outside the
provided sources): an empty buffer writes 0 bytes, an offset at or past the
end is out of bounds, and otherwise `min(buf.len, slice.len - offset)` bytes
are copied into the slice starting at `offset`, returning the count. -/
def vsWrite (dslice : List Nat) (buf : List Nat) (off : Nat) :
    Except StorageError (Nat × List Nat) :=
  if buf = [] then Except.ok (0, dslice)
  else if dslice.length ≤ off then Except.error StorageError.volatileSlice
  else
    Except.ok (min buf.length (dslice.length - off),
      dslice.take off ++ buf.take (min buf.length (dslice.length - off)) ++
        dslice.drop (off + min buf.length (dslice.length - off)))

/-- The inner `loop` of `copyv`: spread the current source buffer across
destination slices. Returns the destination array together with either an
error or `(copied, dst_index, dst_offset)` at the point the source buffer is
exhausted (the `continue 'next_source` exit). `fuel` only bounds the
recursion; each pass either exits or advances `dst_index`, so
`dst.length + 1` passes always suffice. -/
def copyvLoop (fuel : Nat) (s : List Nat) (srcOffset bufferLen : Nat)
    (dst : List (List Nat)) (dstIndex dstOffset copied : Nat) :
    List (List Nat) × Except StorageError (Nat × Nat × Nat) :=
  match fuel with
  | 0 => (dst, Except.error StorageError.memOverflow)
  | fuel + 1 =>
    if dst.length ≤ dstIndex then (dst, Except.error StorageError.memOverflow)
    else
      match vsWrite ((dst.get? dstIndex).getD []) ((s.drop srcOffset).take bufferLen) dstOffset with
      | Except.error e => (dst, Except.error e)
      | Except.ok (written, dslice) =>
        let dst := dst.set dstIndex dslice
        let next : Nat × Nat :=
          if ((dst.get? dstIndex).getD []).length - dstOffset = written
          then (dstIndex + 1, 0) else (dstIndex, dstOffset + written)
        if written = bufferLen then (dst, Except.ok (copied + written, next.1, next.2))
        else copyvLoop fuel s (srcOffset + written) (bufferLen - written) dst next.1 next.2
          (copied + written)

/-- The `'next_source` iteration of `copyv` over the source buffers; after
the first source the source offset restarts at 0. -/
def copyvSources (srcs : List (List Nat)) (srcOffset length : Nat)
    (dst : List (List Nat)) (dstIndex dstOffset copied : Nat) :
    List (List Nat) × Except StorageError (Nat × Nat × Nat) :=
  match srcs with
  | [] => (dst, Except.ok (copied, dstIndex, dstOffset))
  | s :: rest =>
    match copyvLoop (dst.length + 1) s srcOffset (min (s.length - srcOffset) (length - copied))
        dst dstIndex dstOffset copied with
    | (dst, Except.error e) => (dst, Except.error e)
    | (dst, Except.ok (copied, di, dof)) => copyvSources rest 0 length dst di dof copied

/-- `copyv` from `utils.rs`: copy up to `length` bytes of `src` (starting at
`offset` inside the first source buffer) into the destination slices
starting at cursor `(dstIndex, dstOffset)`. The result carries the final
destination contents (destination slices are mutated in place in the
source) together with `(copied, (dst_index, dst_offset))` or the error. -/
def copyv (src : List (List Nat)) (dst : List (List Nat))
    (offset length dstIndex dstOffset : Nat) :
    List (List Nat) × Except StorageError (Nat × Nat × Nat) :=
  if src = [] ∨ length = 0 then (dst, Except.ok (0, dstIndex, dstOffset))
  else if (src.headD []).length < offset ∨ dst.length ≤ dstIndex ∨
      ((dst.get? dstIndex).getD []).length < dstOffset then
    (dst, Except.error StorageError.memOverflow)
  else copyvSources src offset length dst dstIndex dstOffset 0

/-- One pass of `MemSliceCursor::move_cursor`; `fuel` bounds the loop, which
advances `index` every iteration it does not return. -/
def moveCursorAux (fuel : Nat) (lens : List Nat) (index offset size : Nat) : Nat × Nat :=
  match fuel with
  | 0 => (index, offset)
  | fuel + 1 =>
    if size = 0 ∨ lens.length ≤ index then (index, offset)
    else
      if (lens.get? index).getD 0 - offset = size then (index + 1, 0)
      else if size < (lens.get? index).getD 0 - offset then (index, offset + size)
      else moveCursorAux fuel lens (index + 1) 0 (size - ((lens.get? index).getD 0 - offset))

/-- `MemSliceCursor::move_cursor` over the slice lengths `lens`. -/
def move_cursor (lens : List Nat) (index offset size : Nat) : Nat × Nat :=
  moveCursorAux (lens.length + 1) lens index offset size

/-! ## Chunk descriptors, IO tags and segments

`BlobIoSegment`, `BlobIoTag` and `BlobIoChunk` live in
`storage/src/device.rs`, which is outside the provided sources; they are
modelled from the spec (section 3: the IO descriptor's `{offset, len}`
sub-chunk range and the chunk descriptor's offsets/sizes) and from the unit
tests in `cache_entry.rs` that exercise them. -/

/-- Modelled from the spec: the `{offset, len}` user-visible range of a
region (`seg` of section 3's Region). -/
structure BlobIoSegment where
  offset : Nat
  len : Nat
deriving DecidableEq

/-- Modelled from the spec: `BlobIoSegment::new`. -/
def BlobIoSegment.new (offset len : Nat) : BlobIoSegment := { offset := offset, len := len }

/-- Modelled from the spec: a default (all-zero) segment is empty; the
`test_region_new` unit test checks that a fresh region's segment is empty. -/
def BlobIoSegment.is_empty (s : BlobIoSegment) : Bool := s.offset == 0 && s.len == 0

/-- Modelled from the spec: `BlobIoSegment::append` extends the user-visible
length (the `test_region_append` unit test shows `append(0x3000, 0x2000)`
turning `{0x1800, 0x1800}` into `{0x1800, 0x3800}`); the length is a `u32`. -/
def BlobIoSegment.append (s : BlobIoSegment) (_offset len : Nat) : BlobIoSegment :=
  { s with len := (s.len + len) % U32LIMIT }

/-- Modelled from the spec: `BlobIoTag`, either a user IO carrying its
user-visible segment or an internal (prefetch / read-amplify) IO carrying a
compressed offset. -/
inductive BlobIoTag where
  | user (s : BlobIoSegment)
  | internal (offset : Nat)
deriving DecidableEq

/-- Modelled from the spec: `user_io` is true exactly for the `User` tag. -/
def BlobIoTag.isUserIo : BlobIoTag → Bool
  | BlobIoTag.user _ => true
  | BlobIoTag.internal _ => false

/-- Modelled from the spec: the chunk descriptor (section 3), with the
fields the embedded code reads. `uncompress_size` is what the source also
calls `decompress_size`. -/
structure BlobIoChunk where
  index : Nat
  compress_offset : Nat
  compress_size : Nat
  uncompress_offset : Nat
  uncompress_size : Nat
  is_compressed : Bool
deriving DecidableEq

/-! ## `cache_entry.rs`: regions and the merge state -/

/-- `RegionStatus` from `cache_entry.rs`. -/
inductive RegionStatus where
  | init
  | open
  | committed
deriving DecidableEq

/-- `RegionType` from `cache_entry.rs`. -/
inductive RegionType where
  | cacheFast
  | cacheSlow
  | backend
deriving DecidableEq

/-- `Region` from `cache_entry.rs` (field `r#type` is spelled `rtype`). -/
structure Region where
  rtype : RegionType
  status : RegionStatus
  count : Nat
  chunks : List BlobIoChunk
  tags : List Bool
  blob_address : Nat
  blob_len : Nat
  seg : BlobIoSegment
deriving DecidableEq

/-- `Region::new`. -/
def Region.new (region_type : RegionType) : Region :=
  { rtype := region_type, status := RegionStatus.init, count := 0, chunks := [], tags := [],
    blob_address := 0, blob_len := 0, seg := { offset := 0, len := 0 } }

/-- The tail of `Region::append` after the address bookkeeping: record the
user segment for a `User` tag and push the chunk and its tag. -/
def Region.appendTail (r : Region) (tag : BlobIoTag) (chunk : Option BlobIoChunk) : Region :=
  let r :=
    match tag with
    | BlobIoTag.user s =>
      if r.seg.is_empty then { r with seg := BlobIoSegment.new s.offset s.len }
      else { r with seg := r.seg.append s.offset s.len }
    | BlobIoTag.internal _ => r
  match chunk with
  | some c => { r with chunks := r.chunks ++ [c], tags := r.tags ++ [tag.isUserIo] }
  | none => r

/-- `Region::append`. An `Init` region opens at `(start, len)`; an `Open`
region extends only when `start` meets `blob_address + blob_len` and
`start + len` fits in a `u64` (`checked_add`), else it returns
`NotContinuous` before mutating anything, so the error case carries the
region unchanged. `blob_address + blob_len` and `blob_len + len` are the
source's release-mode wrapping `u64`/`u32` additions. The source's
`debug_assert!(status != Committed)` is a debug-build assertion and is not
modelled. -/
def Region.append (r : Region) (start len : Nat) (tag : BlobIoTag)
    (chunk : Option BlobIoChunk) : Region × Option StorageError :=
  if r.status = RegionStatus.init then
    (Region.appendTail
      { r with status := RegionStatus.open, blob_address := start, blob_len := len, count := 1 }
      tag chunk, none)
  else
    if (r.blob_address + r.blob_len) % U64LIMIT ≠ start ∨ U64LIMIT ≤ start + len then
      (r, some StorageError.notContinuous)
    else
      (Region.appendTail
        { r with blob_len := (r.blob_len + len) % U32LIMIT, count := r.count + 1 }
        tag chunk, none)

/-- `Region::has_user_io`. -/
def Region.has_user_io (r : Region) : Bool := !r.seg.is_empty

/-- One recorded call to `Region::append`, for describing regions built by
the merge state. -/
structure AppendOp where
  start : Nat
  len : Nat
  tag : BlobIoTag
  chunk : Option BlobIoChunk
deriving DecidableEq

/-- Apply a sequence of `Region::append` calls, keeping the region a failed
append leaves behind (the merge state then starts a new region; the failed
append did not change this one). -/
def Region.applyOps (r : Region) (ops : List AppendOp) : Region :=
  ops.foldl (fun acc op => (acc.append op.start op.len op.tag op.chunk).1) r

/-- The user-segment length a tag contributes to a region's `seg`. -/
def segLenOf : BlobIoTag → Nat
  | BlobIoTag.user s => s.len
  | BlobIoTag.internal _ => 0

/-- A well-formed tag: a user IO requests at least one byte (the caller's
sub-chunk range is never empty). -/
def tagOk : BlobIoTag → Bool
  | BlobIoTag.user s => s.len != 0
  | BlobIoTag.internal _ => true

/-- A well-formed append. -/
def opUserOk (op : AppendOp) : Bool := tagOk op.tag

/-- The user bytes an append contributes. -/
def opUserLen (op : AppendOp) : Nat := segLenOf op.tag

/-- Total user bytes of a sequence of appends. -/
def userLenSum (ops : List AppendOp) : Nat := (ops.map opUserLen).sum

/-- The region invariant the merge state maintains: a user-tagged chunk
implies a non-empty user segment, and the chunk and tag arrays are
parallel. -/
def regionInv (r : Region) : Prop :=
  (r.tags.any id = true → 0 < r.seg.len) ∧ r.chunks.length = r.tags.length

/-! ## `cache_entry.rs`: per-chunk classification in `read_iter` -/

/-- The entry flags `read_iter` consults. -/
structure EntryFlags where
  is_compressed : Bool
  is_direct_chunkmap : Bool
  is_stargz : Bool
  need_validate : Bool
deriving DecidableEq

/-- The region kind `read_iter` picks for one chunk, from its `if` chain:
`CacheFast` when the chunk is ready, the cache stores uncompressed data and
no validation is needed; else `CacheSlow` when the blob is stargz, the
chunk map is not direct, or the chunk is ready; else `Backend`. -/
def classify_chunk (e : EntryFlags) (is_ready : Bool) : RegionType :=
  if is_ready && !e.is_compressed && !e.need_validate then RegionType.cacheFast
  else if e.is_stargz || !e.is_direct_chunkmap || is_ready then RegionType.cacheSlow
  else RegionType.backend

/-- The tag pushed for a `Backend` chunk: a user tag is kept, an internal
tag is rebuilt around the chunk's compressed offset. -/
def backendTag (tag : BlobIoTag) (chunk : BlobIoChunk) : BlobIoTag :=
  match tag with
  | BlobIoTag.user s => BlobIoTag.user s
  | BlobIoTag.internal _ => BlobIoTag.internal chunk.compress_offset

/-- What `read_iter` does with one chunk of a merged request. -/
inductive ChunkStep where
  /-- `state.push(rt, start, len, tag, chunk)`. -/
  | pushRegion (rt : RegionType) (start len : Nat) (tag : BlobIoTag) (chunk : Option BlobIoChunk)
  /-- `chunk_map.notify_ready(chunk)` with no region push. -/
  | notify
  /-- silently dropped: no region push and no chunk-map call. -/
  | drop
deriving DecidableEq

/-- The body of `read_iter`'s per-chunk `if` chain. On the fast path only a
user IO is pushed (a non-user IO is silently dropped); on the slow path a
user IO is pushed and a non-user IO gets `notify_ready`; otherwise the
chunk is pushed to a `Backend` region at its compressed offset/size. -/
def read_iter_step (e : EntryFlags) (is_ready : Bool) (chunk : BlobIoChunk)
    (tag : BlobIoTag) : ChunkStep :=
  if is_ready && !e.is_compressed && !e.need_validate then
    if tag.isUserIo then
      ChunkStep.pushRegion RegionType.cacheFast chunk.uncompress_offset chunk.uncompress_size
        tag none
    else ChunkStep.drop
  else if e.is_stargz || !e.is_direct_chunkmap || is_ready then
    if tag.isUserIo then
      ChunkStep.pushRegion RegionType.cacheSlow chunk.uncompress_offset chunk.uncompress_size
        tag (some chunk)
    else ChunkStep.notify
  else
    ChunkStep.pushRegion RegionType.backend chunk.compress_offset chunk.compress_size
      (backendTag tag chunk) (some chunk)

/-! ## `cache_entry.rs`: delayed persistence -/

/-- Outcome of one `uio::pwrite` attempt on the cache file. -/
inductive PwriteOutcome where
  /-- `Ok(nr_write)`: the syscall wrote `n` bytes. -/
  | success (n : Nat)
  /-- failed with `ErrorKind::Interrupted` (EINTR): the loop retries. -/
  | interrupted
  /-- failed with any other error: the loop returns it. -/
  | failed
deriving DecidableEq

/-- Why a persistence attempt failed. -/
inductive PersistError where
  /-- the non-EINTR `pwrite` error returned by the loop. -/
  | io
  /-- `n != buffer.len()`: the short-write `eio` after the loop. -/
  | shortWrite
  /-- modelling artifact for a trace with no decisive outcome (the source
  loops forever retrying EINTR; a terminating execution always has one). -/
  | incomplete
deriving DecidableEq

/-- `FileCacheEntry::persist_chunk` over a trace of `pwrite` outcomes: retry
on EINTR, fail on any other error, and once a write returns, fail with
`eio` unless it wrote the whole buffer. -/
def persist_chunk (buffer : List Nat) : List PwriteOutcome → Except PersistError Unit
  | [] => Except.error PersistError.incomplete
  | PwriteOutcome.interrupted :: rest => persist_chunk buffer rest
  | PwriteOutcome.failed :: _ => Except.error PersistError.io
  | PwriteOutcome.success n :: _ =>
    if n ≠ buffer.length then Except.error PersistError.shortWrite else Except.ok ()

/-- The first non-EINTR outcome of a `pwrite` trace. -/
def firstDecisive : List PwriteOutcome → Option PwriteOutcome
  | [] => none
  | PwriteOutcome.interrupted :: rest => firstDecisive rest
  | o :: _ => some o

/-- A call the spawned persistence task makes on the chunk map. -/
inductive ChunkMapAction where
  | setReady
  | notifyReady
deriving DecidableEq

/-- The cache-file offset `delay_persist` writes at. -/
def delay_persist_offset (is_compressed : Bool) (chunk : BlobIoChunk) : Nat :=
  if is_compressed then chunk.compress_offset else chunk.uncompress_offset

/-- The chunk-map call made by the task `FileCacheEntry::delay_persist`
spawns: `set_ready` when `persist_chunk` succeeded, `notify_ready` when it
failed. -/
def delay_persist (buffer : List Nat) (trace : List PwriteOutcome) : ChunkMapAction :=
  match persist_chunk buffer trace with
  | Except.ok _ => ChunkMapAction.setReady
  | Except.error _ => ChunkMapAction.notifyReady

/-! ## `cache/mod.rs`: `read_chunks` and `cache_entry.rs`: `dispatch_backend` -/

/-- `RAFS_MAX_BLOCK_SIZE` is defined in `storage/src/lib.rs`, outside the
provided sources; modelled from the spec's chunk-size glossary (chunks up to
4 MiB). Its exact value does not affect any claim settled here. -/
def RAFS_MAX_BLOCK_SIZE : Nat := 4194304

/-- The environment a backend-region read runs against: the backend
reader's result for a `(offset, size)` read, and the outcome and produced
bytes of `process_raw_chunk` (decompression, size check and optional digest
validation) for each chunk. All of these are external fallible operations
(`backend/`, `compress`, `digest` are outside the provided sources). -/
structure BackendEnv where
  read_result : Nat → Nat → Except Unit Nat
  process_ok : BlobIoChunk → Bool
  chunk_data : BlobIoChunk → List Nat

/-- The per-chunk loop of `BlobCache::read_chunks`: each chunk must start
where the previous ended (`offset != last` fails), pass the offset/size
guards, and decompress/validate; the decompressed buffers are returned in
order. -/
def read_chunks_loop (env : BackendEnv) (blob_offset : Nat) :
    List BlobIoChunk → Nat → Except CacheErr (List (List Nat))
  | [], _ => Except.ok []
  | cki :: rest, last =>
    if cki.compress_offset ≠ last ∨ USIZE_MAX < cki.compress_offset - blob_offset ∨
        U64LIMIT ≤ cki.compress_offset + cki.compress_size ∨
        RAFS_MAX_BLOCK_SIZE < cki.uncompress_size then
      Except.error CacheErr.eio
    else if !env.process_ok cki then Except.error CacheErr.eio
    else
      match read_chunks_loop env blob_offset rest (cki.compress_offset + cki.compress_size) with
      | Except.error e => Except.error e
      | Except.ok chunks => Except.ok (env.chunk_data cki :: chunks)

/-- `BlobCache::read_chunks`: one backend read of `blob_size` bytes at
`blob_offset`; any other number of bytes returned fails with `eio`, then
each chunk is sliced, decompressed and validated in order. -/
def read_chunks (env : BackendEnv) (blob_offset blob_size : Nat)
    (cki_set : List BlobIoChunk) : Except CacheErr (List (List Nat)) :=
  match env.read_result blob_offset blob_size with
  | Except.error _ => Except.error CacheErr.eio
  | Except.ok nr_read =>
    if nr_read ≠ blob_size then Except.error CacheErr.eio
    else read_chunks_loop env blob_offset cki_set blob_offset

/-- Everything observable about one `dispatch_backend` call: the value the
user read gets, the user buffers after the call, the cursor after the call,
the backend reads issued, the chunks `notify_ready` was called on
synchronously, and the chunk-map action of each spawned persistence task
(in spawn order; the tasks complete after the read returns). -/
structure DispatchOutcome where
  result : Except CacheErr Nat
  user_bufs : List (List Nat)
  cursor : Nat × Nat
  backend_calls : List (Nat × Nat)
  notified : List BlobIoChunk
  persists : List ChunkMapAction

/-- `FileCacheEntry::dispatch_backend` for region `r` with user buffers
`bufs` and cursor `(index, offset)`. A region with no user IO only notifies
its chunks; an empty region returns 0; otherwise one backend read of
`blob_len` bytes at `blob_address` runs through `read_chunks`, a failure is
returned to the user read with the buffers untouched, and on success every
chunk is handed to `delay_persist` (its `pwrite` trace supplied by
`persist_trace`) while the user-tagged buffers are copied to the user via
`copyv` and the cursor advances by the copied count. -/
def dispatch_backend (env : BackendEnv) (r : Region) (bufs : List (List Nat))
    (index offset : Nat) (persist_trace : Nat → List PwriteOutcome) : DispatchOutcome :=
  if r.has_user_io = false then
    { result := Except.ok 0, user_bufs := bufs, cursor := (index, offset),
      backend_calls := [], notified := r.chunks, persists := [] }
  else if r.chunks.length = 0 then
    { result := Except.ok 0, user_bufs := bufs, cursor := (index, offset),
      backend_calls := [], notified := [], persists := [] }
  else
    match read_chunks env r.blob_address r.blob_len r.chunks with
    | Except.error e =>
      { result := Except.error e, user_bufs := bufs, cursor := (index, offset),
        backend_calls := [(r.blob_address, r.blob_len)], notified := [], persists := [] }
    | Except.ok datas =>
      let persists := datas.enum.map (fun p => delay_persist p.2 (persist_trace p.1))
      let chunk_buffers := (datas.zip r.tags).filterMap
        (fun p => if p.2 then some p.1 else none)
      match copyv chunk_buffers bufs r.seg.offset r.seg.len index offset with
      | (dst, Except.error _) =>
        { result := Except.error CacheErr.eio, user_bufs := dst, cursor := (index, offset),
          backend_calls := [(r.blob_address, r.blob_len)], notified := [], persists := persists }
      | (dst, Except.ok (n, _, _)) =>
        { result := Except.ok n, user_bufs := dst,
          cursor := move_cursor (bufs.map List.length) index offset n,
          backend_calls := [(r.blob_address, r.blob_len)], notified := [], persists := persists }

/-! ## `cache_entry.rs`: `is_chunk_ready` -/

/-- `BlobCache::is_chunk_ready` for the file-cache entry:
`chunk_map.is_ready_nowait(chunk).unwrap_or(false)`; the argument is the
chunk map's result. -/
def is_chunk_ready (r : Except CacheErr Bool) : Bool :=
  match r with
  | Except.ok b => b
  | Except.error _ => false

/-! ## `fscache/mod.rs`: manager construction and the readiness watchdog -/

/-- `FSCACHE_BLOBS_CHECK_NUM`. -/
def FSCACHE_BLOBS_CHECK_NUM : Nat := 1

/-- The manager state `check_stat` reads and writes: the consecutive
all-ready counter (a `u8`), whether `worker_mgr.stop()` has been called and
the `data_all_ready` metric. -/
structure FsCacheStat where
  blobs_check_count : Nat
  worker_stopped : Bool
  data_all_ready : Bool
deriving DecidableEq

/-- The manager state before any `check_stat` call. -/
def initStat : FsCacheStat :=
  { blobs_check_count := 0, worker_stopped := false, data_all_ready := false }

/-- `FsCacheMgr::check_stat` for one observation: `entries` lists each
entry's `is_all_data_ready()`. When every entry is ready and the counter
has reached `FSCACHE_BLOBS_CHECK_NUM`, the workers are stopped and
`data_all_ready` is set; when every entry is ready but the counter has
not, the counter is incremented (`fetch_add` on a `u8`); otherwise the
counter is reset to 0. -/
def check_stat (entries : List Bool) (s : FsCacheStat) : FsCacheStat :=
  if entries.all id then
    if s.blobs_check_count = FSCACHE_BLOBS_CHECK_NUM then
      { s with worker_stopped := true, data_all_ready := true }
    else { s with blobs_check_count := (s.blobs_check_count + 1) % 256 }
  else { s with blobs_check_count := 0 }

/-- A sequence of `check_stat` calls, earliest first. -/
def run_check_stat (obs : List (List Bool)) (s : FsCacheStat) : FsCacheStat :=
  obs.foldl (fun st o => check_stat o st) s

/-- How many of the most recent observations were all-ready. -/
def trailing_ready (obs : List (List Bool)) : Nat :=
  obs.foldl (fun acc o => if o.all id then acc + 1 else 0) 0

/-- The cache configuration fields the fscache manager reads. -/
structure CacheConfig where
  cache_compressed : Bool
  cache_validate : Bool
deriving DecidableEq

/-- The blob facts `new_fs_cache` consults (`BlobInfo` lives in `device.rs`,
outside the provided sources; the fields mirror the accessors the embedded
code calls). -/
structure FsBlobInfo where
  /-- `has_feature(BlobFeatures::V5_NO_EXT_BLOB_TABLE)`. -/
  v5_no_ext_blob_table : Bool
  /-- `get_fscache_file().is_some()`. -/
  has_fscache_file : Bool
  /-- `meta_ci_is_valid()`. -/
  meta_ci_valid : Bool
  is_legacy_stargz : Bool
  /-- `meta_flags() & BLOB_META_FEATURE_ZRAN != 0`. -/
  meta_flags_zran : Bool
deriving DecidableEq

/-- Outcomes of the fallible external operations manager and entry
construction perform (configuration work-dir lookup, worker manager
creation, chunk-map file creation, backend reader, blob size query, blob
meta load); all are implemented outside the provided sources. -/
structure FsCacheExternal where
  work_dir_ok : Bool
  worker_mgr_ok : Bool
  chunk_map_ok : Bool
  reader_ok : Bool
  blob_size_ok : Bool
  meta_ok : Bool
deriving DecidableEq

/-- Every external operation succeeding. -/
def extAllOk (ext : FsCacheExternal) : Bool :=
  ext.work_dir_ok && ext.worker_mgr_ok && ext.chunk_map_ok && ext.reader_ok &&
    ext.blob_size_ok && ext.meta_ok

/-- The entry flags `new_fs_cache` fills in on success. -/
structure FsCacheEntryFlags where
  is_get_blob_object_supported : Bool
  is_compressed : Bool
  is_direct_chunkmap : Bool
  is_legacy_stargz : Bool
  is_zran : Bool
  need_validation : Bool
deriving DecidableEq

/-- `FsCacheMgr::new`: a compressed cache is rejected up front with
`enosys`; then the fscache work dir and the async worker manager must come
up. -/
def fs_cache_mgr_new (config : CacheConfig) (ext : FsCacheExternal) : Except CacheErr Unit :=
  if config.cache_compressed then Except.error CacheErr.enosys
  else if !ext.work_dir_ok then Except.error CacheErr.einval
  else if !ext.worker_mgr_ok then Except.error CacheErr.eio
  else Except.ok ()

/-- `FileCacheEntry::new_fs_cache`: reject Rafs v5 blobs, require the
fscache file, create the indexed chunk map and the backend reader, query
the blob size, and require valid blob meta before loading it; on success
the entry stores uncompressed data, uses a direct chunk map, supports
`get_blob_object`, and validates only when configured and the blob is not
legacy stargz. -/
def new_fs_cache (config : CacheConfig) (blob : FsBlobInfo) (ext : FsCacheExternal) :
    Except CacheErr FsCacheEntryFlags :=
  if blob.v5_no_ext_blob_table then Except.error CacheErr.einval
  else if !blob.has_fscache_file then Except.error CacheErr.einval
  else if !ext.chunk_map_ok then Except.error CacheErr.eio
  else if !ext.reader_ok then Except.error CacheErr.eio
  else if !ext.blob_size_ok then Except.error CacheErr.einval
  else if !blob.meta_ci_valid then Except.error CacheErr.enosys
  else if !ext.meta_ok then Except.error CacheErr.eio
  else
    Except.ok
      { is_get_blob_object_supported := true, is_compressed := false,
        is_direct_chunkmap := true, is_legacy_stargz := blob.is_legacy_stargz,
        is_zran := blob.meta_flags_zran,
        need_validation := config.cache_validate && !blob.is_legacy_stargz }

/-- Constructing a cache entry under the fscache manager: the manager must
construct (which already rejects compressed caching), then the entry. -/
def construct_fs_cache_entry (config : CacheConfig) (blob : FsBlobInfo)
    (ext : FsCacheExternal) : Except CacheErr FsCacheEntryFlags :=
  match fs_cache_mgr_new config ext with
  | Except.error e => Except.error e
  | Except.ok _ => new_fs_cache config blob ext

/-! ## Concrete instances used by witnesses and counterexamples -/

/-- A demonstration chunk: 4 compressed and uncompressed bytes at offset 0. -/
def cDemo : BlobIoChunk :=
  { index := 0, compress_offset := 0, compress_size := 4, uncompress_offset := 0,
    uncompress_size := 4, is_compressed := false }

/-- Flags under which a ready chunk classifies as `CacheFast`. -/
def fastFlags : EntryFlags :=
  { is_compressed := false, is_direct_chunkmap := true, is_stargz := false,
    need_validate := false }

/-- Flags under which a ready chunk classifies as `CacheSlow` (validation
required). -/
def slowFlags : EntryFlags :=
  { is_compressed := false, is_direct_chunkmap := true, is_stargz := false,
    need_validate := true }

/-- An open region near the top of the `u64` address space, as one append
to a fresh region produces it. -/
def cRegion5 : Region :=
  ((Region.new RegionType.backend).append (U64LIMIT - 6) 4 (BlobIoTag.internal 0) none).1

/-- A small open region for the amended-claim witness. -/
def wRegion5 : Region :=
  ((Region.new RegionType.backend).append 16 8 (BlobIoTag.internal 0) none).1

/-- One user append covering `cDemo` whole. -/
def w2op : AppendOp :=
  { start := 0, len := 4, tag := BlobIoTag.user { offset := 0, len := 4 }, chunk := some cDemo }

/-- The backend region built from `w2op`. -/
def w2region : Region := Region.applyOps (Region.new RegionType.backend) [w2op]

/-- A backend whose read always fails. -/
def w2env : BackendEnv :=
  { read_result := fun _ _ => Except.error (), process_ok := fun _ => true,
    chunk_data := fun _ => [1, 2, 3, 4] }

/-- An uncompressed, non-v5 blob with valid meta but no associated fscache
file. -/
def cex7Blob : FsBlobInfo :=
  { v5_no_ext_blob_table := false, has_fscache_file := false, meta_ci_valid := true,
    is_legacy_stargz := false, meta_flags_zran := false }

/-- A blob accepted by `new_fs_cache`. -/
def wit7Blob : FsBlobInfo :=
  { v5_no_ext_blob_table := false, has_fscache_file := true, meta_ci_valid := true,
    is_legacy_stargz := false, meta_flags_zran := false }

/-- A configuration without compressed caching. -/
def cfg7 : CacheConfig := { cache_compressed := false, cache_validate := false }

/-- Every external operation succeeding. -/
def ext7 : FsCacheExternal :=
  { work_dir_ok := true, worker_mgr_ok := true, chunk_map_ok := true, reader_ok := true,
    blob_size_ok := true, meta_ok := true }

/-- `Except.isOk` spelled out for the embedded result types. -/
def exceptIsOk {ε α : Type} : Except ε α → Bool
  | Except.ok _ => true
  | Except.error _ => false

/-! ## Theorems -/

/-- Claim C8: a `copyv` call with a non-empty source list and positive
length whose offset exceeds the first source buffer, or whose destination
cursor is out of bounds, returns `MemOverflow` and writes nothing to the
destination slices. -/
theorem claim8_copyv_bounds (src dst : List (List Nat)) (offset length dstIndex dstOffset : Nat)
    (hsrc : src ≠ []) (hlen : 0 < length)
    (hbound : (src.headD []).length < offset ∨ dst.length ≤ dstIndex ∨
      ((dst.get? dstIndex).getD []).length < dstOffset) :
    copyv src dst offset length dstIndex dstOffset =
      (dst, Except.error StorageError.memOverflow) := by
  have h1 : ¬(src = [] ∨ length = 0) := by
    rintro (h | h)
    · exact hsrc h
    · omega
  unfold copyv
  rw [if_neg h1, if_pos hbound]

/-- Witness for C8 at a concrete out-of-bounds offset. -/
theorem claim8_witness :
    copyv [[1, 2, 3]] [[0, 0]] 7 2 0 0 = ([[0, 0]], Except.error StorageError.memOverflow) :=
  claim8_copyv_bounds [[1, 2, 3]] [[0, 0]] 7 2 0 0 (by decide) (by decide) (by decide)

/-- Claim C9: a `copyv` call with an empty source list or zero length
returns `Ok` with 0 bytes copied and the destination cursor unchanged; the
bounds validation is skipped entirely, so even an out-of-range cursor is
accepted. -/
theorem claim9_copyv_trivial (src dst : List (List Nat)) (offset length dstIndex dstOffset : Nat)
    (h : src = [] ∨ length = 0) :
    copyv src dst offset length dstIndex dstOffset =
      (dst, Except.ok (0, dstIndex, dstOffset)) := by
  unfold copyv
  rw [if_pos h]

/-- Witness for C9: an empty source list with a cursor that would fail the
bounds validation of a non-trivial call. -/
theorem claim9_witness :
    copyv [] [[0, 0]] 7 5 9 9 = ([[0, 0]], Except.ok (0, 9, 9)) :=
  claim9_copyv_trivial [] [[0, 0]] 7 5 9 9 (Or.inl rfl)

/-- Claim C10: `is_chunk_ready` is a total boolean query: it returns true
exactly on `Ok(true)`, and a chunk-map error is reported as false, the same
answer as `Ok(false)`, so the caller cannot distinguish a chunk-map failure
from an absent chunk. -/
theorem claim10_is_chunk_ready (r : Except CacheErr Bool) :
    (is_chunk_ready r = true ↔ r = Except.ok true) ∧
    (∀ e : CacheErr, is_chunk_ready (Except.error e) = false ∧
      is_chunk_ready (Except.error e) = is_chunk_ready (Except.ok false)) := by
  constructor
  · cases r with
    | ok b => cases b <;> simp [is_chunk_ready]
    | error e => simp [is_chunk_ready]
  · intro e
    exact ⟨rfl, rfl⟩

/-- Witness for C10 at a concrete erroring chunk map. -/
theorem claim10_witness : is_chunk_ready (Except.error CacheErr.eio) = false :=
  ((claim10_is_chunk_ready (Except.error CacheErr.eio)).2 CacheErr.eio).1

/-- Claim C3: `read_iter` classifies a chunk `CacheFast` iff it is ready,
the cache is uncompressed and validation is off; failing that, `CacheSlow`
iff the blob is stargz, the chunk map is not direct, or the chunk is ready;
otherwise `Backend`, pushed at the chunk's compressed offset and size. -/
theorem claim3_classification (e : EntryFlags) (is_ready : Bool) (chunk : BlobIoChunk)
    (tag : BlobIoTag) :
    (classify_chunk e is_ready = RegionType.cacheFast ↔
      (is_ready = true ∧ e.is_compressed = false ∧ e.need_validate = false)) ∧
    (classify_chunk e is_ready = RegionType.cacheSlow ↔
      (¬(is_ready = true ∧ e.is_compressed = false ∧ e.need_validate = false) ∧
        (e.is_stargz = true ∨ e.is_direct_chunkmap = false ∨ is_ready = true))) ∧
    (classify_chunk e is_ready = RegionType.backend ↔
      (¬(is_ready = true ∧ e.is_compressed = false ∧ e.need_validate = false) ∧
        ¬(e.is_stargz = true ∨ e.is_direct_chunkmap = false ∨ is_ready = true))) ∧
    (classify_chunk e is_ready = RegionType.backend →
      read_iter_step e is_ready chunk tag =
        ChunkStep.pushRegion RegionType.backend chunk.compress_offset chunk.compress_size
          (backendTag tag chunk) (some chunk)) := by
  obtain ⟨c, d, s, v⟩ := e
  cases c <;> cases d <;> cases s <;> cases v <;> cases is_ready <;>
    simp [classify_chunk, read_iter_step]

/-- Witness for C3: a ready chunk with validation off classifies fast. -/
theorem claim3_witness : classify_chunk fastFlags true = RegionType.cacheFast :=
  (claim3_classification fastFlags true cDemo (BlobIoTag.internal 0)).1.mpr (by decide)

/-- Counterexample for C4: a non-user IO whose chunk classifies `CacheFast`
is silently dropped (`ChunkStep.drop` performs no chunk-map call at all),
while the claim asserts `notify_ready` is invoked for it. -/
theorem claim4_counterexample :
    classify_chunk fastFlags true = RegionType.cacheFast ∧
    BlobIoTag.isUserIo (BlobIoTag.internal 0) = false ∧
    read_iter_step fastFlags true cDemo (BlobIoTag.internal 0) = ChunkStep.drop ∧
    ChunkStep.drop ≠ ChunkStep.notify := by
  refine ⟨rfl, rfl, rfl, by decide⟩

/-- Claim C4 (amended): a non-user IO classified `CacheFast` or `CacheSlow`
is never pushed to a region, and `notify_ready` is invoked exactly in the
`CacheSlow` case; in the `CacheFast` case the chunk is dropped with no
chunk-map call. -/
theorem claim4_nonuser_dropped (e : EntryFlags) (is_ready : Bool) (chunk : BlobIoChunk)
    (tag : BlobIoTag) (huser : tag.isUserIo = false) :
    (classify_chunk e is_ready = RegionType.cacheFast →
      read_iter_step e is_ready chunk tag = ChunkStep.drop) ∧
    (classify_chunk e is_ready = RegionType.cacheSlow →
      read_iter_step e is_ready chunk tag = ChunkStep.notify) ∧
    (∀ rt start len tg c,
      read_iter_step e is_ready chunk tag = ChunkStep.pushRegion rt start len tg c →
        classify_chunk e is_ready = RegionType.backend) := by
  obtain ⟨c, d, s, v⟩ := e
  cases tag with
  | user seg => simp [BlobIoTag.isUserIo] at huser
  | internal o =>
    cases c <;> cases d <;> cases s <;> cases v <;> cases is_ready <;>
      simp [classify_chunk, read_iter_step, BlobIoTag.isUserIo]

/-- Witness for the amended C4: a non-user `CacheSlow` chunk gets
`notify_ready`. -/
theorem claim4_witness :
    read_iter_step slowFlags true cDemo (BlobIoTag.internal 0) = ChunkStep.notify :=
  (claim4_nonuser_dropped slowFlags true cDemo (BlobIoTag.internal 0) rfl).2.1 rfl

/-- Counterexample for C5: an open region with `blob_address + blob_len`
equal to `2^64 - 2` (reachable by one append to a fresh region) rejects an
append at exactly `start = blob_address + blob_len` with `NotContinuous`,
because `start + len` overflows `checked_add`; the claim asserts such an
append succeeds. -/
theorem claim5_counterexample :
    ((Region.new RegionType.backend).append (U64LIMIT - 6) 4 (BlobIoTag.internal 0) none).2 =
      none ∧
    cRegion5.status = RegionStatus.open ∧
    U64LIMIT - 2 = cRegion5.blob_address + cRegion5.blob_len ∧
    cRegion5.append (U64LIMIT - 2) 4 (BlobIoTag.internal 0) none =
      (cRegion5, some StorageError.notContinuous) := by
  refine ⟨rfl, rfl, by decide, by decide⟩

/-- The segment/chunk bookkeeping of `Region::append` does not touch the
region's status or address range. -/
theorem appendTail_frame (r : Region) (tag : BlobIoTag) (chunk : Option BlobIoChunk) :
    (Region.appendTail r tag chunk).status = r.status ∧
    (Region.appendTail r tag chunk).blob_address = r.blob_address ∧
    (Region.appendTail r tag chunk).blob_len = r.blob_len := by
  unfold Region.appendTail
  cases tag <;> cases chunk <;> dsimp <;> first
  | (split <;> simp)
  | simp

/-- Claim C5 (amended): for an open region whose `blob_address + blob_len`
fits in a `u64`, an append at `start = blob_address + blob_len` with
`start + len` also fitting in a `u64` succeeds and sets `blob_len` to
`(blob_len + len) mod 2^32` (that is, extends it by exactly `len` whenever
the sum fits in a `u32`); an append with `start ≠ blob_address + blob_len`,
or with `start + len` overflowing the `u64` `checked_add`, returns
`NotContinuous` and leaves the region unchanged. -/
theorem claim5_region_append (r : Region) (start len : Nat) (tag : BlobIoTag)
    (chunk : Option BlobIoChunk) (hopen : r.status = RegionStatus.open)
    (haddr : r.blob_address + r.blob_len < U64LIMIT) :
    (start = r.blob_address + r.blob_len ∧ start + len < U64LIMIT →
      (r.append start len tag chunk).2 = none ∧
      (r.append start len tag chunk).1.status = RegionStatus.open ∧
      (r.append start len tag chunk).1.blob_address = r.blob_address ∧
      (r.append start len tag chunk).1.blob_len = (r.blob_len + len) % U32LIMIT) ∧
    (start ≠ r.blob_address + r.blob_len ∨ U64LIMIT ≤ start + len →
      r.append start len tag chunk = (r, some StorageError.notContinuous)) := by
  have hne : ¬ r.status = RegionStatus.init := by
    rw [hopen]
    intro h
    exact RegionStatus.noConfusion h
  have hmod : (r.blob_address + r.blob_len) % U64LIMIT = r.blob_address + r.blob_len :=
    Nat.mod_eq_of_lt haddr
  unfold Region.append
  rw [if_neg hne]
  constructor
  · rintro ⟨h1, h2⟩
    have hcond : ¬((r.blob_address + r.blob_len) % U64LIMIT ≠ start ∨ U64LIMIT ≤ start + len) := by
      rw [hmod]
      push_neg
      exact ⟨h1.symm, h2⟩
    rw [if_neg hcond]
    have hf := appendTail_frame
      { r with blob_len := (r.blob_len + len) % U32LIMIT, count := r.count + 1 } tag chunk
    exact ⟨rfl, by rw [hf.1, hopen], hf.2.1, hf.2.2⟩
  · intro h
    have hcond : (r.blob_address + r.blob_len) % U64LIMIT ≠ start ∨ U64LIMIT ≤ start + len := by
      rcases h with h | h
      · left
        rw [hmod]
        exact fun hh => h hh.symm
      · right
        exact h
    rw [if_pos hcond]

/-- Witness for the amended C5 on a small open region: a contiguous append
extends the length, a gapped append is rejected unchanged. -/
theorem claim5_witness :
    (wRegion5.append 24 8 (BlobIoTag.internal 0) none).2 = none ∧
    (wRegion5.append 24 8 (BlobIoTag.internal 0) none).1.blob_len = 16 ∧
    wRegion5.append 30 8 (BlobIoTag.internal 0) none =
      (wRegion5, some StorageError.notContinuous) := by
  have h := claim5_region_append wRegion5 24 8 (BlobIoTag.internal 0) none (by decide) (by decide)
  have h2 := claim5_region_append wRegion5 30 8 (BlobIoTag.internal 0) none (by decide) (by decide)
  refine ⟨(h.1 ⟨by decide, by decide⟩).1, ?_, h2.2 (Or.inl (by decide))⟩
  rw [(h.1 ⟨by decide, by decide⟩).2.2.2]
  decide

/-- One `check_stat` observation moves the consecutive counter exactly as
the capped trailing-run count does. -/
theorem check_stat_count_step (o : List Bool) (s : FsCacheStat) (t : Nat)
    (h : s.blobs_check_count = min t FSCACHE_BLOBS_CHECK_NUM) :
    (check_stat o s).blobs_check_count =
      min (if o.all id then t + 1 else 0) FSCACHE_BLOBS_CHECK_NUM := by
  unfold FSCACHE_BLOBS_CHECK_NUM at *
  by_cases ha : o.all id
  · by_cases hc : s.blobs_check_count = 1
    · simp [check_stat, FSCACHE_BLOBS_CHECK_NUM, ha, hc]
    · simp [check_stat, FSCACHE_BLOBS_CHECK_NUM, ha, hc]
      omega
  · simp [check_stat, FSCACHE_BLOBS_CHECK_NUM, ha]

/-- After any observation sequence, the consecutive counter equals the
capped count of trailing all-ready observations. -/
theorem run_check_stat_count (obs : List (List Bool)) :
    ∀ (s : FsCacheStat) (t : Nat), s.blobs_check_count = min t FSCACHE_BLOBS_CHECK_NUM →
      (run_check_stat obs s).blobs_check_count =
        min (obs.foldl (fun acc o => if o.all id then acc + 1 else 0) t)
          FSCACHE_BLOBS_CHECK_NUM := by
  induction obs with
  | nil =>
    intro s t h
    simpa [run_check_stat] using h
  | cons o rest ih =>
    intro s t h
    have hstep := check_stat_count_step o s t h
    simpa [run_check_stat, List.foldl_cons] using
      ih (check_stat o s) (if o.all id then t + 1 else 0) hstep

/-- Claim C6: the fscache watchdog. An observation in which some entry is
not all-ready resets the consecutive counter to 0 and neither stops the
workers nor declares data-all-ready; the workers are stopped (and
data-all-ready declared) at an observation only when that observation is
all-ready and at least `FSCACHE_BLOBS_CHECK_NUM` (the default, 1)
consecutive preceding observations were all-ready. -/
theorem claim6_check_stat_watchdog (obs : List (List Bool)) (o : List Bool) :
    (o.all id = false →
      (check_stat o (run_check_stat obs initStat)).blobs_check_count = 0 ∧
      (check_stat o (run_check_stat obs initStat)).worker_stopped =
        (run_check_stat obs initStat).worker_stopped ∧
      (check_stat o (run_check_stat obs initStat)).data_all_ready =
        (run_check_stat obs initStat).data_all_ready) ∧
    ((check_stat o (run_check_stat obs initStat)).worker_stopped = true →
      (run_check_stat obs initStat).worker_stopped = true ∨
        (o.all id = true ∧ FSCACHE_BLOBS_CHECK_NUM ≤ trailing_ready obs)) ∧
    ((check_stat o (run_check_stat obs initStat)).data_all_ready = true →
      (run_check_stat obs initStat).data_all_ready = true ∨
        (o.all id = true ∧ FSCACHE_BLOBS_CHECK_NUM ≤ trailing_ready obs)) := by
  have hcount : (run_check_stat obs initStat).blobs_check_count =
      min (trailing_ready obs) FSCACHE_BLOBS_CHECK_NUM := by
    have h0 : initStat.blobs_check_count = min 0 FSCACHE_BLOBS_CHECK_NUM := by
      simp [initStat]
    simpa [trailing_ready] using run_check_stat_count obs initStat 0 h0
  refine ⟨?_, ?_, ?_⟩
  · intro h
    refine ⟨?_, ?_, ?_⟩ <;> simp [check_stat, h]
  · intro h
    by_cases ha : o.all id
    · by_cases hc : (run_check_stat obs initStat).blobs_check_count = FSCACHE_BLOBS_CHECK_NUM
      · right
        refine ⟨ha, ?_⟩
        rw [hcount] at hc
        unfold FSCACHE_BLOBS_CHECK_NUM at *
        omega
      · left
        have heq : (check_stat o (run_check_stat obs initStat)).worker_stopped =
            (run_check_stat obs initStat).worker_stopped := by
          simp [check_stat, ha, hc]
        rw [← heq]
        exact h
    · left
      have heq : (check_stat o (run_check_stat obs initStat)).worker_stopped =
          (run_check_stat obs initStat).worker_stopped := by
        simp [check_stat, ha]
      rw [← heq]
      exact h
  · intro h
    by_cases ha : o.all id
    · by_cases hc : (run_check_stat obs initStat).blobs_check_count = FSCACHE_BLOBS_CHECK_NUM
      · right
        refine ⟨ha, ?_⟩
        rw [hcount] at hc
        unfold FSCACHE_BLOBS_CHECK_NUM at *
        omega
      · left
        have heq : (check_stat o (run_check_stat obs initStat)).data_all_ready =
            (run_check_stat obs initStat).data_all_ready := by
          simp [check_stat, ha, hc]
        rw [← heq]
        exact h
    · left
      have heq : (check_stat o (run_check_stat obs initStat)).data_all_ready =
          (run_check_stat obs initStat).data_all_ready := by
        simp [check_stat, ha]
      rw [← heq]
      exact h

/-- Witness for C6: after one all-ready observation the second stops the
workers, and a negative observation resets the counter. -/
theorem claim6_witness :
    ([true].all id = true ∧ FSCACHE_BLOBS_CHECK_NUM ≤ trailing_ready [[true]]) ∧
    (check_stat [false] (run_check_stat [[true]] initStat)).blobs_check_count = 0 := by
  refine ⟨?_, ?_⟩
  · have h := (claim6_check_stat_watchdog [[true]] [true]).2.1 (by decide)
    rcases h with h | h
    · exact absurd h (by decide)
    · exact h
  · exact ((claim6_check_stat_watchdog [[true]] [false]).1 (by decide)).1

/-- Counterexample for C7: a configuration without compressed caching and a
non-v5 blob with valid blob meta — every case the claim lists as succeeding
— still fails construction, because the blob has no associated fscache
file, even with every external operation succeeding. -/
theorem claim7_counterexample :
    cfg7.cache_compressed = false ∧ cex7Blob.v5_no_ext_blob_table = false ∧
    cex7Blob.meta_ci_valid = true ∧ extAllOk ext7 = true ∧
    construct_fs_cache_entry cfg7 cex7Blob ext7 = Except.error CacheErr.einval := by
  exact ⟨rfl, rfl, rfl, rfl, rfl⟩

/-- Claim C7 (amended): constructing a cache entry under the fscache
manager fails when the configuration requests compressed caching, the blob
is an old-format (v5 no-external-blob-table) blob, the blob lacks valid
blob-meta information, or the blob has no associated fscache file;
otherwise — provided the external operations (work-dir lookup, worker
manager, chunk-map file, backend reader, blob size query, blob-meta load)
succeed — construction succeeds, with the entry uncompressed, direct-mapped
and validating only when configured and not legacy stargz. -/
theorem claim7_fs_cache_construction (config : CacheConfig) (blob : FsBlobInfo)
    (ext : FsCacheExternal) :
    ((config.cache_compressed = true ∨ blob.v5_no_ext_blob_table = true ∨
        blob.meta_ci_valid = false ∨ blob.has_fscache_file = false) →
      exceptIsOk (construct_fs_cache_entry config blob ext) = false) ∧
    (extAllOk ext = true → config.cache_compressed = false →
      blob.v5_no_ext_blob_table = false → blob.has_fscache_file = true →
      blob.meta_ci_valid = true →
      construct_fs_cache_entry config blob ext =
        Except.ok
          { is_get_blob_object_supported := true, is_compressed := false,
            is_direct_chunkmap := true, is_legacy_stargz := blob.is_legacy_stargz,
            is_zran := blob.meta_flags_zran,
            need_validation := config.cache_validate && !blob.is_legacy_stargz }) := by
  obtain ⟨cc, cv⟩ := config
  obtain ⟨v5, ff, mv, ls, zr⟩ := blob
  obtain ⟨wd, wm, cm, rd, bs, mo⟩ := ext
  cases cc <;> cases v5 <;> cases mv <;> cases ff <;> cases wd <;> cases wm <;> cases cm <;>
    cases rd <;> cases bs <;> cases mo <;>
      simp [construct_fs_cache_entry, fs_cache_mgr_new, new_fs_cache, extAllOk, exceptIsOk]

/-- Witness for the amended C7: a well-formed blob constructs, and each
rejected case fails. -/
theorem claim7_witness :
    construct_fs_cache_entry cfg7 wit7Blob ext7 =
      Except.ok
        { is_get_blob_object_supported := true, is_compressed := false,
          is_direct_chunkmap := true, is_legacy_stargz := false, is_zran := false,
          need_validation := false } ∧
    exceptIsOk (construct_fs_cache_entry cfg7 cex7Blob ext7) = false := by
  refine ⟨?_, ?_⟩
  · exact (claim7_fs_cache_construction cfg7 wit7Blob ext7).2 rfl rfl rfl rfl rfl
  · exact (claim7_fs_cache_construction cfg7 cex7Blob ext7).1 (by decide)

/-- `persist_chunk` succeeds exactly when the first decisive `pwrite`
outcome wrote the whole buffer. -/
theorem persist_chunk_ok_iff (buffer : List Nat) (trace : List PwriteOutcome) :
    persist_chunk buffer trace = Except.ok () ↔
      firstDecisive trace = some (PwriteOutcome.success buffer.length) := by
  induction trace with
  | nil => simp [persist_chunk, firstDecisive]
  | cons o rest ih =>
    cases o with
    | interrupted => simpa [persist_chunk, firstDecisive] using ih
    | failed => simp [persist_chunk, firstDecisive]
    | success n =>
      by_cases h : n = buffer.length
      · subst h
        simp [persist_chunk, firstDecisive]
      · simp [persist_chunk, firstDecisive, h]

/-- Claim C1: the delayed-persistence task calls `set_ready` exactly when
the (EINTR-retried) `pwrite` of the chunk's full buffer succeeded — a short
write counts as failure — and calls `notify_ready` in every failure case;
and the outcome of persistence has no effect on the value the user read
returns or on the user buffers it filled. -/
theorem claim1_delay_persist (buffer : List Nat) (trace : List PwriteOutcome)
    (env : BackendEnv) (r : Region) (bufs : List (List Nat)) (index offset : Nat)
    (t1 t2 : Nat → List PwriteOutcome) :
    (delay_persist buffer trace = ChunkMapAction.setReady ↔
      firstDecisive trace = some (PwriteOutcome.success buffer.length)) ∧
    (delay_persist buffer trace = ChunkMapAction.notifyReady ↔
      ¬ firstDecisive trace = some (PwriteOutcome.success buffer.length)) ∧
    (dispatch_backend env r bufs index offset t1).result =
      (dispatch_backend env r bufs index offset t2).result ∧
    (dispatch_backend env r bufs index offset t1).user_bufs =
      (dispatch_backend env r bufs index offset t2).user_bufs := by
  have hiff := persist_chunk_ok_iff buffer trace
  have hind : (dispatch_backend env r bufs index offset t1).result =
      (dispatch_backend env r bufs index offset t2).result ∧
      (dispatch_backend env r bufs index offset t1).user_bufs =
      (dispatch_backend env r bufs index offset t2).user_bufs := by
    by_cases h1 : r.has_user_io = false
    · simp [dispatch_backend, h1]
    · by_cases h2 : r.chunks.length = 0
      · simp [dispatch_backend, h1, h2]
      · cases hrc : read_chunks env r.blob_address r.blob_len r.chunks with
        | error e => simp [dispatch_backend, h1, h2, hrc]
        | ok datas =>
          rcases hcv : copyv ((datas.zip r.tags).filterMap fun p =>
              if p.2 then some p.1 else none) bufs r.seg.offset r.seg.len index offset
            with ⟨dst, res⟩
          cases res <;> simp [dispatch_backend, h1, h2, hrc, hcv]
  refine ⟨?_, ?_, hind⟩
  · rw [← hiff]
    unfold delay_persist
    cases hp : persist_chunk buffer trace with
    | ok u =>
      cases u
      simp [hp]
    | error e => simp [hp]
  · rw [← hiff]
    unfold delay_persist
    cases hp : persist_chunk buffer trace with
    | ok u =>
      cases u
      simp [hp]
    | error e => simp [hp]

/-- The segment/chunk bookkeeping of `Region::append` preserves the region
invariant and grows the user segment by at most the tag's length. -/
theorem appendTail_inv (rb : Region) (tag : BlobIoTag) (chunk : Option BlobIoChunk)
    (hwf : tagOk tag = true)
    (hbound : rb.seg.len + segLenOf tag < U32LIMIT)
    (hinv1 : rb.tags.any id = true → 0 < rb.seg.len)
    (hinv2 : rb.chunks.length = rb.tags.length) :
    ((Region.appendTail rb tag chunk).tags.any id = true →
      0 < (Region.appendTail rb tag chunk).seg.len) ∧
    ((Region.appendTail rb tag chunk).chunks.length =
      (Region.appendTail rb tag chunk).tags.length) ∧
    (Region.appendTail rb tag chunk).seg.len ≤ rb.seg.len + segLenOf tag := by
  cases tag with
  | internal o =>
    cases chunk with
    | none => exact ⟨hinv1, hinv2, Nat.le_add_right _ _⟩
    | some c =>
      refine ⟨?_, ?_, ?_⟩
      · intro h
        apply hinv1
        simpa [Region.appendTail, List.any_append, BlobIoTag.isUserIo] using h
      · simp [Region.appendTail, hinv2]
      · simp [Region.appendTail, segLenOf]
  | user s =>
    have hslen : s.len ≠ 0 := by simpa [tagOk] using hwf
    have hb : rb.seg.len + s.len < U32LIMIT := by simpa [segLenOf] using hbound
    by_cases hseg : rb.seg.is_empty
    · cases chunk with
      | none =>
        refine ⟨?_, ?_, ?_⟩ <;>
          simp [Region.appendTail, hseg, BlobIoSegment.new, segLenOf, hinv2] <;> omega
      | some c =>
        refine ⟨?_, ?_, ?_⟩ <;>
          simp [Region.appendTail, hseg, BlobIoSegment.new, segLenOf, hinv2] <;> omega
    · have hmod : (rb.seg.len + s.len) % U32LIMIT = rb.seg.len + s.len := Nat.mod_eq_of_lt hb
      cases chunk with
      | none =>
        refine ⟨?_, ?_, ?_⟩ <;>
          simp [Region.appendTail, hseg, BlobIoSegment.append, segLenOf, hinv2, hmod] <;> omega
      | some c =>
        refine ⟨?_, ?_, ?_⟩ <;>
          simp [Region.appendTail, hseg, BlobIoSegment.append, segLenOf, hinv2, hmod] <;> omega

/-- One `Region::append` preserves the invariant and grows the user segment
by at most the tag's length. -/
theorem append_inv_step (r : Region) (op : AppendOp) (hwf : opUserOk op = true)
    (hbound : r.seg.len + opUserLen op < U32LIMIT) (hinv : regionInv r) :
    regionInv ((r.append op.start op.len op.tag op.chunk).1) ∧
    ((r.append op.start op.len op.tag op.chunk).1).seg.len ≤ r.seg.len + opUserLen op := by
  have h1 := appendTail_inv { r with status := RegionStatus.open, blob_address := op.start, blob_len := op.len, count := 1 } op.tag op.chunk hwf hbound hinv.1 hinv.2
  have h2 := appendTail_inv { r with blob_len := (r.blob_len + op.len) % U32LIMIT, count := r.count + 1 } op.tag op.chunk hwf hbound hinv.1 hinv.2
  unfold Region.append
  by_cases hst : r.status = RegionStatus.init
  · rw [if_pos hst]
    exact ⟨⟨h1.1, h1.2.1⟩, h1.2.2⟩
  · rw [if_neg hst]
    by_cases hc : (r.blob_address + r.blob_len) % U64LIMIT ≠ op.start ∨
        U64LIMIT ≤ op.start + op.len
    · rw [if_pos hc]
      exact ⟨hinv, Nat.le_add_right _ _⟩
    · rw [if_neg hc]
      exact ⟨⟨h2.1, h2.2.1⟩, h2.2.2⟩

/-- A well-formed append sequence whose total user bytes fit in a `u32`
preserves the region invariant. -/
theorem applyOps_inv (ops : List AppendOp) : ∀ r : Region,
    ops.all opUserOk = true → r.seg.len + userLenSum ops < U32LIMIT → regionInv r →
    regionInv (r.applyOps ops) ∧
      (r.applyOps ops).seg.len ≤ r.seg.len + userLenSum ops := by
  induction ops with
  | nil =>
    intro r _ _ hinv
    exact ⟨by simpa [Region.applyOps] using hinv, by simp [Region.applyOps, userLenSum]⟩
  | cons op rest ih =>
    intro r hwf hbound hinv
    rw [List.all_cons, Bool.and_eq_true] at hwf
    have hsum : userLenSum (op :: rest) = opUserLen op + userLenSum rest := by
      simp [userLenSum]
    rw [hsum] at hbound
    have hstep := append_inv_step r op hwf.1 (by omega) hinv
    have happ : r.applyOps (op :: rest) =
        ((r.append op.start op.len op.tag op.chunk).1).applyOps rest := by
      simp [Region.applyOps]
    rw [happ, hsum]
    have hrec := ih ((r.append op.start op.len op.tag op.chunk).1) hwf.2 (by omega) hstep.1
    exact ⟨hrec.1, by omega⟩

/-- A region satisfying the invariant that carries a user-tagged chunk has
user IO and a non-empty chunk list. -/
theorem region_user_chunks (r : Region) (hinv : regionInv r)
    (huser : r.tags.any id = true) :
    r.has_user_io = true ∧ r.chunks.length ≠ 0 := by
  have hlen := hinv.1 huser
  constructor
  · unfold Region.has_user_io BlobIoSegment.is_empty
    simp
    omega
  · have ht : r.tags ≠ [] := by
      intro h
      rw [h] at huser
      simp at huser
    rw [hinv.2]
    intro h
    exact ht (List.length_eq_zero.mp h)

/-- A failed backend read makes `read_chunks` fail with `eio`. -/
theorem read_chunks_err_of_read_err (env : BackendEnv) (a l : Nat) (cs : List BlobIoChunk)
    (e : Unit) (h : env.read_result a l = Except.error e) :
    read_chunks env a l cs = Except.error CacheErr.eio := by
  simp [read_chunks, h]

/-- A backend read returning any count other than the requested size makes
`read_chunks` fail with `eio`. -/
theorem read_chunks_err_of_short (env : BackendEnv) (a l : Nat) (cs : List BlobIoChunk)
    (n : Nat) (hok : env.read_result a l = Except.ok n) (hne : n ≠ l) :
    read_chunks env a l cs = Except.error CacheErr.eio := by
  simp [read_chunks, hok, hne]

/-- Claim C2: for a Backend region (built by well-formed appends) that
carries at least one user-visible chunk, exactly one backend read of
`blob_len` bytes at `blob_address` is issued; and if the backend read
errors, returns a byte count other than `blob_len`, or any chunk's
decompress/validate step fails, the read call fails with an Io error and no
bytes of that region are written into the user buffers. -/
theorem claim2_backend_region (env : BackendEnv) (ops : List AppendOp) (region : Region)
    (bufs : List (List Nat)) (index offset : Nat) (tr : Nat → List PwriteOutcome)
    (hreg : region = Region.applyOps (Region.new RegionType.backend) ops)
    (hwf : ops.all opUserOk = true)
    (hbound : userLenSum ops < U32LIMIT)
    (huser : region.tags.any id = true) :
    (dispatch_backend env region bufs index offset tr).backend_calls =
      [(region.blob_address, region.blob_len)] ∧
    (∀ e, env.read_result region.blob_address region.blob_len = Except.error e →
      (dispatch_backend env region bufs index offset tr).result = Except.error CacheErr.eio ∧
      (dispatch_backend env region bufs index offset tr).user_bufs = bufs) ∧
    (∀ n, env.read_result region.blob_address region.blob_len = Except.ok n →
      n ≠ region.blob_len →
      (dispatch_backend env region bufs index offset tr).result = Except.error CacheErr.eio ∧
      (dispatch_backend env region bufs index offset tr).user_bufs = bufs) ∧
    (∀ e, read_chunks env region.blob_address region.blob_len region.chunks =
        Except.error e →
      (dispatch_backend env region bufs index offset tr).result = Except.error e ∧
      (dispatch_backend env region bufs index offset tr).user_bufs = bufs) := by
  have hinv : regionInv region := by
    rw [hreg]
    refine (applyOps_inv ops (Region.new RegionType.backend) hwf ?_ ?_).1
    · simpa [Region.new] using hbound
    · constructor <;> simp [Region.new]
  have hio := region_user_chunks region hinv huser
  have h1 : ¬ region.has_user_io = false := by simp [hio.1]
  have h2 : ¬ region.chunks.length = 0 := hio.2
  cases hrc : read_chunks env region.blob_address region.blob_len region.chunks with
  | error e0 =>
    refine ⟨?_, ?_, ?_, ?_⟩
    · simp [dispatch_backend, h1, h2, hrc]
    · intro e he
      have h3 := read_chunks_err_of_read_err env region.blob_address region.blob_len
        region.chunks e he
      have he0 : e0 = CacheErr.eio := by simpa using hrc.symm.trans h3
      subst he0
      refine ⟨?_, ?_⟩ <;> simp [dispatch_backend, h1, h2, hrc]
    · intro n hok hne
      have h3 := read_chunks_err_of_short env region.blob_address region.blob_len
        region.chunks n hok hne
      have he0 : e0 = CacheErr.eio := by simpa using hrc.symm.trans h3
      subst he0
      refine ⟨?_, ?_⟩ <;> simp [dispatch_backend, h1, h2, hrc]
    · intro e he
      have he0 : e0 = e := by simpa using he
      subst he0
      refine ⟨?_, ?_⟩ <;> simp [dispatch_backend, h1, h2, hrc]
  | ok datas =>
    refine ⟨?_, ?_, ?_, ?_⟩
    · rcases hcv : copyv ((datas.zip region.tags).filterMap fun p =>
          if p.2 then some p.1 else none) bufs region.seg.offset region.seg.len index offset
        with ⟨dst, res⟩
      cases res <;> simp [dispatch_backend, h1, h2, hrc, hcv]
    · intro e he
      have h3 := read_chunks_err_of_read_err env region.blob_address region.blob_len
        region.chunks e he
      rw [h3] at hrc
      exact Except.noConfusion hrc
    · intro n hok hne
      have h3 := read_chunks_err_of_short env region.blob_address region.blob_len
        region.chunks n hok hne
      rw [h3] at hrc
      exact Except.noConfusion hrc
    · intro e he
      exact Except.noConfusion he

/-- Witness for C2: a one-chunk user region against a failing backend
issues the single read and fails with the buffers untouched. -/
theorem claim2_witness :
    (dispatch_backend w2env w2region [[7, 7, 7, 7]] 0 0 (fun _ => [])).backend_calls =
      [(w2region.blob_address, w2region.blob_len)] ∧
    (dispatch_backend w2env w2region [[7, 7, 7, 7]] 0 0 (fun _ => [])).result =
      Except.error CacheErr.eio ∧
    (dispatch_backend w2env w2region [[7, 7, 7, 7]] 0 0 (fun _ => [])).user_bufs =
      [[7, 7, 7, 7]] := by
  have h := claim2_backend_region w2env [w2op] w2region [[7, 7, 7, 7]] 0 0 (fun _ => [])
    rfl (by decide) (by decide) (by decide)
  exact ⟨h.1, (h.2.1 () rfl).1, (h.2.1 () rfl).2⟩

end NydusCache
